import Mathlib

/-!
Verification of the pattern-driven extraction engine of the letterexplorer
repository (`regex_parser.stable.py` and `research/markup_parser.py`).

The Python regex engine itself (`re`) is external to the repository; it is
modelled by oracles that report, per pattern/flags/text, the outcomes of
`re.findall`, `re.search` and `re.finditer`.  All extraction logic of the
repository (value selection, truthiness filtering, the eight table-shape
strategies, section and subsection carving) is embedded directly from the
source.  Python strings are modelled by Lean `String`/`List Char`
(Python indexes by code point, as `List Char` does); Python exceptions by
`Except String`; Python `dict` by insertion-ordered association lists whose
update-in-place semantics are mirrored by `pyDictSet`.
-/

namespace LetterExplorer

/-- A Python value as produced by the extraction engine: a string, a tuple of
strings (a `re.findall` element when the pattern has several groups), a list,
a dict, or `None`. -/
inductive Value where
  | str (s : String)
  | tuple (elems : List String)
  | vlist (elems : List Value)
  | vmap (entries : List (String × Value))
  | pynone

/-- Python truthiness for the values above: empty string, empty containers and
`None` are falsy. -/
def truthy : Value → Bool
  | .str s => s != ""
  | .tuple l => !l.isEmpty
  | .vlist l => !l.isEmpty
  | .vmap l => !l.isEmpty
  | .pynone => false

/-- Truthiness of an optional value (`None` for `Option.none`). -/
def truthyOpt : Option Value → Bool
  | some v => truthy v
  | none => false

/-- Python `d[k] = v` on an insertion-ordered dict: overwrite in place when the
key exists, append otherwise. -/
def pyDictSet {α : Type} (d : List (String × α)) (k : String) (v : α) :
    List (String × α) :=
  if d.any (fun p => p.1 == k) then
    d.map (fun p => if p.1 == k then (k, v) else p)
  else
    d ++ [(k, v)]

/-- Python `d[k]` lookup (first entry with the key). -/
def pyDictGet {α : Type} (d : List (String × α)) (k : String) : Option α :=
  (d.find? (fun p => p.1 == k)).map (fun p => p.2)

/-- `l₁` starts with `l₂` (character lists). -/
def startsWithChars : List Char → List Char → Bool
  | _, [] => true
  | [], _ :: _ => false
  | c :: cs, d :: ds => c == d && startsWithChars cs ds

/-- `l₁` contains `l₂` as a contiguous sublist; Python `sub in s`. -/
def containsSub : List Char → List Char → Bool
  | [], pat => pat.isEmpty
  | c :: cs, pat => startsWithChars (c :: cs) pat || containsSub cs pat

/-- Python `sub in s` on strings. -/
def pyContains (s sub : String) : Bool := containsSub s.data sub.data

/-- Python `s.startswith(pre)`. -/
def pyStartsWith (s pre : String) : Bool := startsWithChars s.data pre.data

/-- Python `s.endswith(suf)`. -/
def pyEndsWith (s suf : String) : Bool :=
  startsWithChars s.data.reverse suf.data.reverse

/-- Strip leading and trailing whitespace from a character list
(Python `str.strip()`). -/
def pyStripL (cs : List Char) : List Char :=
  ((cs.dropWhile Char.isWhitespace).reverse.dropWhile Char.isWhitespace).reverse

/-- Python `s.strip()`. -/
def pyStrip (s : String) : String := ⟨pyStripL s.data⟩

/-- Split a character list on `'\n'`, keeping empty pieces
(Python `s.split(chr(10))`; the empty string yields one empty piece). -/
def splitLinesChars : List Char → List (List Char)
  | [] => [[]]
  | c :: cs =>
    if c == '\n' then [] :: splitLinesChars cs
    else
      match splitLinesChars cs with
      | [] => [[c]]
      | l :: ls => (c :: l) :: ls

/-- Python `s.split(chr(10))` on strings. -/
def pySplitNl (s : String) : List String :=
  (splitLinesChars s.data).map (fun l => ⟨l⟩)

/-- Helper for `pySplitWs`: accumulate the current (reversed) token while
scanning; whitespace ends a token, empty tokens are not emitted. -/
def splitWsAux : List Char → List Char → List (List Char)
  | [], acc => if acc.isEmpty then [] else [acc.reverse]
  | c :: cs, acc =>
    if c.isWhitespace then
      if acc.isEmpty then splitWsAux cs [] else acc.reverse :: splitWsAux cs []
    else
      splitWsAux cs (c :: acc)

/-- Python `s.split()` with no argument: split on runs of whitespace,
discarding empty tokens. -/
def pySplitWs (s : String) : List String :=
  (splitWsAux s.data []).map (fun l => ⟨l⟩)

/-- Python `s.isdigit()` restricted to ASCII digits (all inputs handled by the
repository are ASCII digits or Cyrillic letters, for which the two agree). -/
def pyIsdigit (s : String) : Bool := s != "" && s.data.all Char.isDigit

/-- Remove every occurrence of the given characters
(Python chained `s.replace(c, str())` calls). -/
def removeChars (s : String) (cs : List Char) : String :=
  ⟨s.data.filter (fun c => !cs.contains c)⟩

/-- Python `int(s)` on a string of ASCII digits. -/
def pyInt (s : String) : Nat := s.toNat!

/-- The single-quote character, used by the Python `repr` of strings. -/
def pyQuote : String := String.singleton (Char.ofNat 39)

/-- Comma-separated join (Python `", ".join`). -/
def joinComma (l : List String) : String := String.intercalate ", " l

mutual

/-- Python `repr` of a `Value` (used by `str(...)` on non-string values in
`extract_table`; claims only exercise the string case, where `pyStrOf` is the
identity, so only the shape of this rendering matters). -/
def pyReprV : Value → String
  | .str s => pyQuote ++ s ++ pyQuote
  | .pynone => "None"
  | .tuple l => "(" ++ joinComma (l.map (fun s => pyQuote ++ s ++ pyQuote)) ++ ")"
  | .vlist l => "[" ++ joinComma (pyReprList l) ++ "]"
  | .vmap l => "\x7b" ++ joinComma (pyReprMap l) ++ "\x7d"

/-- `repr` of each element of a list of values. -/
def pyReprList : List Value → List String
  | [] => []
  | v :: vs => pyReprV v :: pyReprList vs

/-- `repr` of each entry of a dict of values. -/
def pyReprMap : List (String × Value) → List String
  | [] => []
  | p :: ps => (pyQuote ++ p.1 ++ pyQuote ++ ": " ++ pyReprV p.2) :: pyReprMap ps

end

/-- Python `str(v)`: the string itself for strings, `repr` otherwise. -/
def pyStrOf : Value → String
  | .str s => s
  | v => pyReprV v

/-! ## The regex-engine oracle

`RegexParser.extract_with_pattern` drives Python `re`.  The engine is outside
the repository; an `ReOracle` records what `re` reports for one
(pattern, flags, text) triple: whether compiling/running raised `re.error`,
the groupdict of `re.search`'s first match (consulted when the pattern
contains a `(?P<` named group), and the `re.findall` result (whole matches
for group-free patterns, group captures for one group, tuples for several). -/

structure ReOracle where
  raisesError : Bool := false
  searchNamed : Option (List (String × Option String)) := none
  findall : List Value := []

/-- The regex engine applied to a pattern, its flag names, and a text. -/
abbrev Oracle := String → List String → String → ReOracle

/-- One pattern descriptor: `pattern_info.get('pattern', str())` and
`pattern_info.get('flags', [])`. -/
structure PatternInfo where
  pattern : String := ""
  flags : List String := []

/-- A groupdict value: captured text, or `None` for a non-participating
group. -/
def optStrToValue : Option String → Value
  | some s => .str s
  | none => .pynone

/-- Does the pattern contain a named group?  Python tests
`'(?P<' in pattern`. -/
def hasNamedGroups (p : String) : Bool := pyContains p "(?P<"

/-- `RegexParser.extract_with_pattern`: empty pattern returns `None`;
`re.error` is caught and yields `None`; a pattern with named groups returns
the first match's groupdict (or `None` when there is no match); otherwise the
`re.findall` result is returned — the single element when there is exactly
one match, the whole list when there are several, `None` when there are
none. -/
def extractWithPattern (p : PatternInfo) (o : ReOracle) : Option Value :=
  if p.pattern == "" then none
  else if o.raisesError then none
  else if hasNamedGroups p.pattern then
    match o.searchNamed with
    | some gd => some (.vmap (gd.map (fun q => (q.1, optStrToValue q.2))))
    | none => none
  else
    match o.findall with
    | [] => none
    | [v] => some v
    | vs => some (.vlist vs)

/-- Shared loop of `RegexParser.extract_metadata` and
`RegexParser.extract_technical_params`: for each field, run
`extract_with_pattern` and store the result under the field's key when it is
truthy. -/
def extractFieldsLoop (o : Oracle) (text : String)
    (acc : List (String × Value)) :
    List (String × PatternInfo) → List (String × Value)
  | [] => acc
  | (k, p) :: rest =>
    let r := extractWithPattern p (o p.pattern p.flags text)
    match r with
    | some v =>
      if truthy v then extractFieldsLoop o text (pyDictSet acc k v) rest
      else extractFieldsLoop o text acc rest
    | none => extractFieldsLoop o text acc rest

/-- `RegexParser.extract_metadata`. -/
def extractMetadata (fields : List (String × PatternInfo)) (o : Oracle)
    (text : String) : List (String × Value) :=
  extractFieldsLoop o text [] fields

/-- `RegexParser.extract_technical_params`. -/
def extractTechnicalParams (fields : List (String × PatternInfo)) (o : Oracle)
    (text : String) : List (String × Value) :=
  extractFieldsLoop o text [] fields

/-! ## Table extraction (`RegexParser.extract_table`)

A `TableResult` is a Python dict; it is modelled as an insertion-ordered
association list of `Value`s.  Exceptions that escape a strategy
(`IndexError`, `AttributeError`, `TypeError`) are modelled by `Except`. -/

/-- One table descriptor, with the defaults `table_info.get(...)` uses. -/
structure TableInfo where
  tableName : String := "unknown"
  tableNumber : String := ""
  description : String := ""
  extractionMethod : String := "structured"
  struct : Option (List (String × PatternInfo)) := none
  tablePattern : Option String := none
  flags : List String := []
  headerPattern : Option String := none
  rowNames : Option Value := none
  valuePatterns : List (String × String) := []

/-- Python `.strip()` is only defined on strings; any other receiver raises
`AttributeError`. -/
def asPyStr : Value → Except String String
  | .str s => .ok s
  | _ => .error "AttributeError"

/-- `table_data['rows'][row_name] = v`-style nested dict update. -/
def tdSetNested (td : List (String × Value)) (outer inner : String)
    (v : Value) : List (String × Value) :=
  match pyDictGet td outer with
  | some (.vmap m) => pyDictSet td outer (.vmap (pyDictSet m inner v))
  | _ => td

/-- Column tokens of the `structured` strategy: split the captured header text
on whitespace, strip each token, keep the non-empty ones. -/
def columnTokens (s : String) : List String :=
  ((pySplitWs s).map pyStrip).filter (fun t => t != "")

/-- Row values of the `structured` strategy: split the captured row text on
whitespace, strip, and keep a token when it is non-empty and its first
character is a digit or the token starts with the placeholder prefix `н`. -/
def rowValues (rowText : String) : List String :=
  ((pySplitWs rowText).map pyStrip).filter
    (fun v => v != "" &&
      (match v.data with
       | [] => false
       | c :: _ => c.isDigit || pyStartsWith v "н"))

/-- The `structured` strategy (table 1, chemical composition): header tokens
from the `elements` sub-pattern, then filtered row values for each of the
`recommended`/`certificate`/`espz` sub-patterns. -/
def structuredBranch (o : Oracle) (text : String)
    (struct : List (String × PatternInfo)) (td : List (String × Value)) :
    List (String × Value) :=
  let td1 :=
    match pyDictGet struct "elements" with
    | some p =>
      match extractWithPattern p (o p.pattern p.flags text) with
      | some v =>
        if truthy v then
          pyDictSet td "columns" (.vlist ((columnTokens (pyStrOf v)).map .str))
        else td
      | none => td
    | none => td
  ["recommended", "certificate", "espz"].foldl
    (fun acc rowName =>
      match pyDictGet struct rowName with
      | some p =>
        match extractWithPattern p (o p.pattern p.flags text) with
        | some v =>
          if truthy v then
            tdSetNested acc "rows" rowName
              (.vlist ((rowValues (pyStrOf v)).map .str))
          else acc
        | none => acc
      | none => acc)
    td1

/-- The `simple` strategy: the match is kept verbatim as `raw_data`
(a tuple of group captures becomes a list). -/
def simpleBranch (v : Value) (td : List (String × Value)) :
    List (String × Value) :=
  match v with
  | .tuple l => pyDictSet td "raw_data" (.vlist (l.map .str))
  | _ => pyDictSet td "raw_data" v

/-- The `structured_table_2` strategy (temperature table): strip the captured
block and split it on newlines; when there are at least 6 lines the code
takes lines 0–2 as headers and reads lines 3–8 as three value pairs —
reading lines 6, 7 and 8 raises `IndexError` when the block has 6, 7 or 8
lines; with fewer than 6 lines the whole match is kept as `raw_text`. -/
def table2Branch (v : Value) (td : List (String × Value)) :
    Except String (List (String × Value)) :=
  match v with
  | .str s =>
    let lines := pySplitNl (pyStrip s)
    if lines.length ≥ 6 then
      let td1 := pyDictSet td "headers"
        (.vlist [.str (pyStrip (lines.getD 0 "")),
                 .str (pyStrip (lines.getD 1 "")),
                 .str (pyStrip (lines.getD 2 ""))])
      match lines.get? 6, lines.get? 7, lines.get? 8 with
      | some l6, some l7, some l8 =>
        .ok (pyDictSet td1 "values"
          (.vlist [.vlist [.str (pyStrip (lines.getD 3 "")),
                           .str (pyStrip (lines.getD 4 ""))],
                   .vlist [.str (pyStrip (lines.getD 5 "")),
                           .str (pyStrip l6)],
                   .vlist [.str (pyStrip l7), .str (pyStrip l8)]]))
      | _, _, _ => .error "IndexError"
    else
      .ok (pyDictSet td "raw_text" (.str s))
  | _ => .error "AttributeError"

/-- Does the would-be value of a key/value pair start with a rejection
marker? -/
def kvReject (v : String) : Bool := pyStartsWith v "N" || pyStartsWith v "Д"

/-- The pairing loop of the `key_value_table` strategy: consume lines pairwise
as (key, value); when the would-be value starts with a rejection marker,
advance by one line instead of two; a trailing unpaired line is dropped. -/
def kvLoop (d : List (String × String)) :
    List String → List (String × String)
  | k :: v :: rest =>
    if kvReject v then kvLoop d (v :: rest)
    else kvLoop (pyDictSet d k v) rest
  | _ => d

/-- Non-empty stripped lines of a captured block (the preprocessing of the
`key_value_table` strategy). -/
def kvLines (s : String) : List String :=
  (((pySplitNl (pyStrip s)).map pyStrip).filter (fun l => l != ""))

/-- The `key_value_table` strategy (table 3). -/
def keyValueBranch (v : Value) (td : List (String × Value)) :
    Except String (List (String × Value)) :=
  match v with
  | .str s =>
    .ok (pyDictSet td "data"
      (.vmap ((kvLoop [] (kvLines s)).map (fun p => (p.1, Value.str p.2)))))
  | _ => .error "AttributeError"

/-- The data-start test of the `structured_table_4` strategy: the line is
purely numeric/punctuation after deleting `+ , . - space`, or it is a bare
integer at least 85. -/
def table4DataTest (l : String) : Bool :=
  pyIsdigit (removeChars l ['+', ',', '.', '-', ' ']) ||
    (pyIsdigit l && pyInt l ≥ 85)

/-- Line loop of the `structured_table_4` strategy: lines before the first
data-looking line are headers; from there on, lines with at least 3
whitespace tokens become rows. -/
def table4Loop (headerLines : List String) (rows : List Value)
    (dataStarted : Bool) : List String → List String × List Value
  | [] => (headerLines, rows)
  | line :: rest =>
    let l := pyStrip line
    if l == "" then table4Loop headerLines rows dataStarted rest
    else
      let started := dataStarted || table4DataTest l
      if !started then table4Loop (headerLines ++ [l]) rows started rest
      else
        let parts := pySplitWs l
        if parts.length ≥ 3 then
          table4Loop headerLines (rows ++ [.vlist (parts.map .str)]) started rest
        else table4Loop headerLines rows started rest

/-- The `structured_table_4` strategy (diameters and tolerances). -/
def table4Branch (v : Value) (td : List (String × Value)) :
    Except String (List (String × Value)) :=
  match v with
  | .str s =>
    let res := table4Loop [] [] false (pySplitNl (pyStrip s))
    .ok (pyDictSet
      (pyDictSet (pyDictSet td "headers" (.vlist [])) "rows" (.vlist res.2))
      "headers" (.vlist (res.1.map .str)))
  | _ => .error "AttributeError"

/-- Which accumulator the `structured_table_5` state machine is filling. -/
inductive Tbl5Sel where
  | dist
  | low
  | high

/-- A token is numeric for tables 4–6 when deleting commas and periods leaves
digits only. -/
def numericToken (part : String) : Bool :=
  pyIsdigit (removeChars part [',', '.'])

/-- Line loop of the `structured_table_5` strategy: the marker lines `MM`,
`min`, `max` switch the active accumulator, `HRC` and the banner line are
no-ops, and numeric tokens of other lines are appended to the active
accumulator. -/
def table5Loop (dists lows highs : List String) (cur : Option Tbl5Sel) :
    List String → List String × List String × List String
  | [] => (dists, lows, highs)
  | line :: rest =>
    let l := pyStrip line
    if pyContains l "Полоса прокаливаемости" then
      table5Loop dists lows highs cur rest
    else if l == "MM" then table5Loop dists lows highs (some .dist) rest
    else if l == "min" then table5Loop dists lows highs (some .low) rest
    else if l == "HRC" then table5Loop dists lows highs cur rest
    else if l == "max" then table5Loop dists lows highs (some .high) rest
    else if l != "" && cur.isSome then
      let nums := (pySplitWs l).filter numericToken
      match cur with
      | some .dist => table5Loop (dists ++ nums) lows highs cur rest
      | some .low => table5Loop dists (lows ++ nums) highs cur rest
      | some .high => table5Loop dists lows (highs ++ nums) cur rest
      | none => table5Loop dists lows highs cur rest
    else table5Loop dists lows highs cur rest

/-- The `structured_table_5` strategy (hardenability band). -/
def table5Branch (v : Value) (td : List (String × Value)) :
    Except String (List (String × Value)) :=
  match v with
  | .str s =>
    let res := table5Loop [] [] [] none (pySplitNl (pyStrip s))
    .ok (pyDictSet
      (pyDictSet
        (pyDictSet (pyDictSet td "data" (.vmap []))
          "distances_mm" (.vlist (res.1.map .str)))
        "min_hrc" (.vlist (res.2.1.map .str)))
      "max_hrc" (.vlist (res.2.2.map .str)))
  | _ => .error "AttributeError"

/-- Token loop of the `structured_table_6` strategy: numeric tokens are
accumulated two at a time into diameter/compression records. -/
def table6Tokens (data : List Value) (current : List String) :
    List String → List Value × List String
  | [] => (data, current)
  | part :: rest =>
    if numericToken part then
      let cur := current ++ [part]
      if cur.length == 2 then
        table6Tokens
          (data ++ [.vmap [("diameter_mm", .str (cur.getD 0 "")),
                           ("compression_degree", .str (cur.getD 1 ""))]])
          [] rest
      else table6Tokens data cur rest
    else table6Tokens data current rest

/-- Line loop of the `structured_table_6` strategy: blank lines, `;` and
header-word lines are skipped; the numeric-pair accumulator carries across
lines. -/
def table6Loop (data : List Value) (current : List String) :
    List String → List Value
  | [] => data
  | line :: rest =>
    let l := pyStrip line
    if l == "" || l == ";" then table6Loop data current rest
    else if pyContains l "Диаметр" || pyContains l "Степень" ||
        pyContains l "проката" || pyContains l "обжатия" then
      table6Loop data current rest
    else
      let res := table6Tokens data current (pySplitWs l)
      table6Loop res.1 res.2 rest

/-- The `structured_table_6` strategy (compression degree). -/
def table6Branch (v : Value) (td : List (String × Value)) :
    Except String (List (String × Value)) :=
  match v with
  | .str s =>
    .ok (pyDictSet td "data"
      (.vlist (table6Loop [] [] (pySplitNl (pyStrip s)))))
  | _ => .error "AttributeError"

/-- The `text_block` strategy: keep the match verbatim as `raw_text`. -/
def textBlockBranch (v : Value) (td : List (String × Value)) :
    List (String × Value) :=
  pyDictSet td "raw_text" (.str (pyStrOf v))

/-- The legacy branch (`header_pattern` / `row_names` / `value_patterns`). -/
def legacyBranch (o : Oracle) (text : String) (ti : TableInfo)
    (td : List (String × Value)) : List (String × Value) :=
  let td1 :=
    match ti.headerPattern with
    | some hp =>
      match extractWithPattern { pattern := hp } (o hp [] text) with
      | some v =>
        if truthy v then
          match v with
          | .vlist l => pyDictSet td "columns" (.vlist l)
          | w => pyDictSet td "columns" (.vlist [w])
        else td
      | none => td
    | none => td
  let td2 :=
    match ti.rowNames with
    | some rv => pyDictSet td1 "rows" rv
    | none => td1
  ti.valuePatterns.foldl
    (fun acc q =>
      match extractWithPattern { pattern := q.2 } (o q.2 [] text) with
      | some v => if truthy v then tdSetNested acc "data" q.1 v else acc
      | none => acc)
    td2

/-- Run `extract_with_pattern` for a table strategy that has a single
`pattern` key (`flags` taken from the table descriptor). -/
def tableMatch (o : Oracle) (text : String) (ti : TableInfo) : Option Value :=
  let p := ti.tablePattern.getD ""
  extractWithPattern { pattern := p, flags := ti.flags } (o p ti.flags text)

/-- `RegexParser.extract_table`: build the static identity fields, then
dispatch on the declared strategy tag; a strategy whose pattern produced no
(truthy) match leaves the identity skeleton untouched. -/
def extractTable (o : Oracle) (text : String) (ti : TableInfo) :
    Except String (List (String × Value)) :=
  let td : List (String × Value) :=
    [("table_name", .str ti.tableName),
     ("table_number", .str ti.tableNumber),
     ("description", .str ti.description),
     ("columns", .vlist []),
     ("rows", .vmap []),
     ("data", .vmap [])]
  if ti.extractionMethod == "structured" && ti.struct.isSome then
    .ok (structuredBranch o text (ti.struct.getD []) td)
  else if ti.extractionMethod == "simple" && ti.tablePattern.isSome then
    match tableMatch o text ti with
    | some v => if truthy v then .ok (simpleBranch v td) else .ok td
    | none => .ok td
  else if ti.extractionMethod == "structured_table_2" && ti.tablePattern.isSome then
    match tableMatch o text ti with
    | some v => if truthy v then table2Branch v td else .ok td
    | none => .ok td
  else if ti.extractionMethod == "key_value_table" && ti.tablePattern.isSome then
    match tableMatch o text ti with
    | some v => if truthy v then keyValueBranch v td else .ok td
    | none => .ok td
  else if ti.extractionMethod == "structured_table_4" && ti.tablePattern.isSome then
    match tableMatch o text ti with
    | some v => if truthy v then table4Branch v td else .ok td
    | none => .ok td
  else if ti.extractionMethod == "structured_table_5" && ti.tablePattern.isSome then
    match tableMatch o text ti with
    | some v => if truthy v then table5Branch v td else .ok td
    | none => .ok td
  else if ti.extractionMethod == "structured_table_6" && ti.tablePattern.isSome then
    match tableMatch o text ti with
    | some v => if truthy v then table6Branch v td else .ok td
    | none => .ok td
  else if ti.extractionMethod == "text_block" && ti.tablePattern.isSome then
    match tableMatch o text ti with
    | some v => if truthy v then .ok (textBlockBranch v td) else .ok td
    | none => .ok td
  else
    .ok (legacyBranch o text ti td)

/-- `RegexParser.extract_tables`: each table in turn; an escaping exception
aborts the run. -/
def extractTables (o : Oracle) (text : String) :
    List TableInfo → Except String (List Value)
  | [] => .ok []
  | ti :: rest =>
    match extractTable o text ti with
    | .error e => .error e
    | .ok td =>
      match extractTables o text rest with
      | .error e => .error e
      | .ok tds => .ok (.vmap td :: tds)

/-! ## Section extraction (`RegexParser.extract_sections`) -/

/-- One section descriptor, with the defaults the code uses
(`pattern_info.get('extraction_method', 'simple')`,
`'subsection_pattern' in pattern_info`). -/
structure SectionInfo where
  pattern : String := ""
  flags : List String := []
  extractionMethod : String := "simple"
  subsectionPattern : Option String := none

/-- Oracle for `re.finditer(subsection_pattern, section_text,
re.MULTILINE | re.DOTALL)`: per match, the captures of groups 1 and 2
(`None` for a non-participating group; a pattern with fewer than two groups
makes `match.group(...)` raise, which the caller surfaces). -/
abbrev SubOracle := String → String → List (Option String × Option String)

/-- Build the subsections dict from the subsection matches:
`subsections[m.group(1).strip()] = m.group(2).strip()`; `.strip()` on a
`None` group raises `AttributeError`. -/
def subsectionsFromMatches (acc : List (String × String)) :
    List (Option String × Option String) →
      Except String (List (String × String))
  | [] => .ok acc
  | (g1, g2) :: rest =>
    match g1, g2 with
    | some n, some c =>
      subsectionsFromMatches (pyDictSet acc (pyStrip n) (pyStrip c)) rest
    | _, _ => .error "AttributeError"

/-- `RegexParser.extract_sections`: run the body pattern of each section; a
falsy result (no match, or an empty selected value) omits the section; a
`structured_subsections` section with at least one subsection stores
`full_text` plus the subsections map, otherwise the body is stored plainly.
`re.finditer` on a non-string body (the body pattern matched several times,
so the matcher returned a list) raises `TypeError`. -/
def extractSectionsLoop (o : Oracle) (so : SubOracle) (text : String)
    (acc : List (String × Value)) :
    List (String × SectionInfo) → Except String (List (String × Value))
  | [] => .ok acc
  | (name, si) :: rest =>
    match extractWithPattern { pattern := si.pattern, flags := si.flags }
        (o si.pattern si.flags text) with
    | none => extractSectionsLoop o so text acc rest
    | some v =>
      if !truthy v then extractSectionsLoop o so text acc rest
      else
        match si.extractionMethod == "structured_subsections",
            si.subsectionPattern with
        | true, some sp =>
          match v with
          | .str s =>
            match subsectionsFromMatches [] (so sp s) with
            | .error e => .error e
            | .ok subs =>
              if !subs.isEmpty then
                extractSectionsLoop o so text
                  (pyDictSet acc name
                    (.vmap [("full_text", v),
                            ("subsections",
                             .vmap (subs.map (fun q => (q.1, Value.str q.2))))]))
                  rest
              else
                extractSectionsLoop o so text (pyDictSet acc name v) rest
          | _ => .error "TypeError"
        | _, _ =>
          extractSectionsLoop o so text (pyDictSet acc name v) rest

/-- `RegexParser.extract_sections`. -/
def extractSections (specs : List (String × SectionInfo)) (o : Oracle)
    (so : SubOracle) (text : String) :
    Except String (List (String × Value)) :=
  extractSectionsLoop o so text [] specs

/-- The full pattern specification consumed by `RegexParser.parse_document`;
a missing top-level key behaves like an empty group. -/
structure PatternsSpec where
  metadata : List (String × PatternInfo) := []
  technicalParams : List (String × PatternInfo) := []
  sections : List (String × SectionInfo) := []
  tables : List TableInfo := []

/-- `RegexParser.parse_document`: assemble metadata, technical parameters,
sections and tables over one document into a single nested result. -/
def parseDocument (o : Oracle) (so : SubOracle) (ps : PatternsSpec)
    (text : String) : Except String Value :=
  let md := extractMetadata ps.metadata o text
  let tp := extractTechnicalParams ps.technicalParams o text
  match extractSections ps.sections o so text with
  | .error e => .error e
  | .ok secs =>
    match extractTables o text ps.tables with
    | .error e => .error e
    | .ok tbls =>
      .ok (.vmap [("metadata", .vmap md),
                  ("technical_params", .vmap tp),
                  ("sections", .vmap secs),
                  ("tables", .vlist tbls)])

/-! ## The markup-side matcher (`research/markup_parser.py`) -/

/-- A regex match over a text indexed by code points: the span
`[matchStart, matchEnd)` and the capture of group 1, as delivered by
`re.finditer` in `MarkupParser._extract_subsections`. -/
structure MatchSpan where
  matchStart : Nat
  matchEnd : Nat
  group1 : String

/-- Python slicing `text[a:b]` on a code-point list. -/
def sliceChars (cs : List Char) (a b : Nat) : List Char :=
  (cs.drop a).take (b - a)

/-- `re.finditer` delivers matches in document order without overlap: each
span is well-formed and starts no earlier than the previous match ended
(`p` is the lower bound inherited from the preceding match). -/
def validFrom (p : Nat) : List MatchSpan → Bool
  | [] => true
  | m :: rest =>
    decide (p ≤ m.matchStart) && decide (m.matchStart ≤ m.matchEnd) &&
      validFrom m.matchEnd rest

/-- Start offset of the first match (end of text when there is none). -/
def headStart (text : List Char) : List MatchSpan → Nat
  | [] => text.length
  | m :: _ => m.matchStart

/-- The raw (unstripped) subsection bodies of
`MarkupParser._extract_subsections`: for match `i` the body is the slice
from `match.end()` to the start of match `i+1`, or to end-of-text for the
last match. -/
def rawBodies (text : List Char) : List MatchSpan → List (String × List Char)
  | [] => []
  | m :: rest =>
    (m.group1, sliceChars text m.matchEnd (headStart text rest)) ::
      rawBodies text rest

/-- Accumulator loop of `MarkupParser._extract_subsections`:
`subsections[match.group(1)] = section_text[start:end].strip()`. -/
def subsectionsLoop (text : List Char) (d : List (String × List Char)) :
    List MatchSpan → List (String × List Char)
  | [] => d
  | m :: rest =>
    subsectionsLoop text
      (pyDictSet d m.group1
        (pyStripL (sliceChars text m.matchEnd (headStart text rest))))
      rest

/-- `MarkupParser._extract_subsections` (the stored, stripped bodies). -/
def extractSubsections (text : List Char) (ms : List MatchSpan) :
    List (String × List Char) :=
  subsectionsLoop text [] ms

/-- Concatenate the matched labels with the given bodies, in order. -/
def interleaveParts (text : List Char) :
    List MatchSpan → List (List Char) → List Char
  | [], _ => []
  | _ :: _, [] => []
  | m :: rest, b :: bs =>
    sliceChars text m.matchStart m.matchEnd ++ b ++ interleaveParts text rest bs

/-- The reconstruction the subsection boundary law speaks about: the text
before the first label, then each label followed by its subsection body. -/
def reconstruct (text : List Char) (ms : List MatchSpan)
    (bodies : List (List Char)) : List Char :=
  sliceChars text 0 (headStart text ms) ++ interleaveParts text ms bodies

/-- The all-occurrences branch of `MarkupParser._find_by_regex` for a label
without a capture-group designator: collect every full-document match; only
when that yields nothing, search each document line and keep the first match
per line.  The engine is abstracted by `finditerF` (all non-overlapping
matches of the compiled pattern) and `searchF` (its first match). -/
def findAllNoGroup (finditerF : String → List String)
    (searchF : String → Option String) (text : String)
    (docLines : List String) : List String :=
  let results := finditerF text
  if results.isEmpty then docLines.filterMap searchF else results

/-- One match as consumed by the group-selection branch of
`MarkupParser._find_by_regex`: the whole match (`group(0)`) and the list of
its groups (`None` for a non-participating group). -/
structure GroupMatch where
  whole : String
  groups : List (Option String)

/-- Group selection as `MarkupParser._find_by_regex` implements it: prefer
group `gn` when the match has groups and `0 < gn ≤ len(groups)`, else
group 1 when the match has groups, else the whole match. -/
def selectValue (gn : Nat) (m : GroupMatch) : Option String :=
  if !m.groups.isEmpty && decide (0 < gn) && decide (gn ≤ m.groups.length) then
    m.groups.getD (gn - 1) none
  else if !m.groups.isEmpty then m.groups.getD 0 none
  else some m.whole

/-- Group selection as claim C8 words it: with no capture groups the whole
match is returned; when `gn` is not a valid positive group index but groups
exist, group 1; otherwise group `gn`. -/
def selectValueSpec (gn : Nat) (m : GroupMatch) : Option String :=
  if m.groups.isEmpty then some m.whole
  else if gn == 0 || decide (m.groups.length < gn) then m.groups.getD 0 none
  else m.groups.getD (gn - 1) none

/-- The value collected for each match in the group-selection branch of
`MarkupParser._find_by_regex`. -/
def findGroupValues (gn : Nat) : List GroupMatch → List (Option String)
  | [] => []
  | m :: rest => selectValue gn m :: findGroupValues gn rest

/-- The parameter-storing step of `MarkupParser._parse_params`: of the values
the matcher returned, only the first is considered (`values[:1]`), and it is
stored only when truthy. -/
def paramsStoreMarkup (d : List (String × String)) (key : String)
    (values : List (Option String)) : List (String × String) :=
  (values.take 1).foldl
    (fun acc v =>
      match v with
      | some s => if s != "" then pyDictSet acc key s else acc
      | none => acc)
    d

/-! ## Helper lemmas -/

/-- Membership in a Python dict after an update: every entry was already
present or is the written pair. -/
theorem mem_pyDictSet {α : Type} (d : List (String × α)) (k : String) (v : α)
    (p : String × α) (hp : p ∈ pyDictSet d k v) : p ∈ d ∨ p = (k, v) := by
  unfold pyDictSet at hp
  by_cases h : d.any (fun q => q.1 == k)
  · rw [if_pos h, List.mem_map] at hp
    obtain ⟨q, hq, hqe⟩ := hp
    by_cases hqk : q.1 == k
    · rw [if_pos hqk] at hqe
      exact Or.inr hqe.symm
    · rw [if_neg hqk] at hqe
      exact Or.inl (hqe ▸ hq)
  · rw [if_neg h, List.mem_append] at hp
    rcases hp with h1 | h1
    · exact Or.inl h1
    · exact Or.inr (List.mem_singleton.mp h1)

/-- Writing a fresh key appends the pair at the end. -/
theorem pyDictSet_fresh {α : Type} (d : List (String × α)) (k : String)
    (v : α) (h : ∀ p ∈ d, p.1 ≠ k) : pyDictSet d k v = d ++ [(k, v)] := by
  unfold pyDictSet
  rw [if_neg]
  simp only [List.any_eq_true, not_exists, not_and]
  intro p hp
  simpa using h p hp

/-- Dropping a satisfied-by-nothing prefix is the identity. -/
theorem dropWhile_eq_self_of_all (l : List Char)
    (h : ∀ c ∈ l, c.isWhitespace = false) :
    l.dropWhile Char.isWhitespace = l := by
  cases l with
  | nil => rfl
  | cons c cs =>
    rw [List.dropWhile_cons, if_neg]
    simp [h c (List.mem_cons_self c cs)]

/-- Stripping a whitespace-free character list is the identity. -/
theorem pyStripL_eq_self (l : List Char)
    (h : ∀ c ∈ l, c.isWhitespace = false) : pyStripL l = l := by
  unfold pyStripL
  rw [dropWhile_eq_self_of_all l h, dropWhile_eq_self_of_all, List.reverse_reverse]
  intro c hc
  exact h c (List.mem_reverse.mp hc)

/-- Tokens produced by the whitespace splitter are non-empty and contain no
whitespace (provided the pending token does not either). -/
theorem splitWsAux_sound : ∀ (cs acc : List Char),
    (∀ c ∈ acc, c.isWhitespace = false) →
    ∀ t ∈ splitWsAux cs acc, t ≠ [] ∧ ∀ c ∈ t, c.isWhitespace = false := by
  intro cs
  induction cs with
  | nil =>
    intro acc hacc t ht
    unfold splitWsAux at ht
    by_cases h : acc.isEmpty
    · rw [if_pos h] at ht
      exact absurd ht (List.not_mem_nil t)
    · rw [if_neg h, List.mem_singleton] at ht
      subst ht
      refine ⟨by simpa [List.isEmpty_iff] using h, ?_⟩
      intro c hc
      exact hacc c (List.mem_reverse.mp hc)
  | cons c cs ih =>
    intro acc hacc t ht
    unfold splitWsAux at ht
    by_cases hws : c.isWhitespace
    · rw [if_pos hws] at ht
      by_cases hacc0 : acc.isEmpty
      · rw [if_pos hacc0] at ht
        exact ih [] (by simp) t ht
      · rw [if_neg hacc0, List.mem_cons] at ht
        rcases ht with h1 | h1
        · subst h1
          refine ⟨by simpa [List.isEmpty_iff] using hacc0, ?_⟩
          intro d hd
          exact hacc d (List.mem_reverse.mp hd)
        · exact ih [] (by simp) t h1
    · rw [if_neg hws] at ht
      refine ih (c :: acc) ?_ t ht
      intro d hd
      rcases List.mem_cons.mp hd with h1 | h1
      · subst h1
        simpa using hws
      · exact hacc d h1

/-- Every token of Python `s.split()` is non-empty and whitespace-free. -/
theorem pySplitWs_tokens (s : String) :
    ∀ t ∈ pySplitWs s, t.data ≠ [] ∧ ∀ c ∈ t.data, c.isWhitespace = false := by
  intro t ht
  unfold pySplitWs at ht
  rw [List.mem_map] at ht
  obtain ⟨l, hl, hle⟩ := ht
  obtain ⟨h1, h2⟩ := splitWsAux_sound s.data [] (by simp) l hl
  subst hle
  exact ⟨h1, h2⟩

/-- The row filter of the `structured` strategy as claim C7 words it: the
whitespace-split tokens whose first character is a digit or the placeholder
prefix `н`, in original order. -/
def rowValuesSpec (s : String) : List String :=
  (pySplitWs s).filter (fun v =>
    match v.data with
    | [] => false
    | c :: _ => c.isDigit || c == 'н')

/-- The per-token strip in the row-value loop is the identity and the
non-emptiness test is redundant: the loop equals the plain filter of
`rowValuesSpec`. -/
theorem rowValues_eq_filter (s : String) : rowValues s = rowValuesSpec s := by
  unfold rowValues rowValuesSpec
  have h := pySplitWs_tokens s
  revert h
  generalize pySplitWs s = L
  induction L with
  | nil => intro _; rfl
  | cons t L ih =>
    intro h
    obtain ⟨h1, h2⟩ := h t (List.mem_cons_self t L)
    have hstrip : pyStrip t = t := by
      show (⟨pyStripL t.data⟩ : String) = t
      rw [pyStripL_eq_self t.data h2]
    have hne : (t != "") = true := by
      rw [bne_iff_ne]
      intro he
      exact h1 (by simpa using congrArg String.data he)
    cases hc : t.data with
    | nil => exact absurd hc h1
    | cons c cs =>
      have hstart : pyStartsWith t "н" = (c == 'н') := by
        unfold pyStartsWith
        rw [hc]
        show startsWithChars (c :: cs) ['н'] = (c == 'н')
        simp [startsWithChars]
      simp only [List.map_cons, List.filter_cons, hstrip,
        ih (fun u hu => h u (List.mem_cons_of_mem t hu))]
      have hpred : (t != "" &&
          (match t.data with
           | [] => false
           | c :: _ => c.isDigit || pyStartsWith t "н")) =
          (match t.data with
           | [] => false
           | c :: _ => c.isDigit || c == 'н') := by
        rw [hne, hc, Bool.true_and, hstart]
      rw [hpred]

/-- C7.  Structured-table numeric filter: the row value list is the
whitespace-split token list of the captured row text restricted to tokens
whose first character is a digit or that start with the placeholder prefix
`н`, in original order; in particular the row text
`0,42 0,25 Рекоменд` yields exactly `[0,42, 0,25]`, the trailing label being
excluded. -/
theorem c7_structured_numeric_filter :
    rowValues "0,42 0,25 Рекоменд" = ["0,42", "0,25"] ∧
    ∀ s : String, rowValues s = rowValuesSpec s :=
  ⟨by decide, rowValues_eq_filter⟩

/-- Every value stored by the key/value pairing loop passed the
rejection-marker test (provided the incoming dict did). -/
theorem kvLoop_reject_invariant :
    ∀ (n : Nat) (lines : List String), lines.length ≤ n →
      ∀ d : List (String × String), (∀ p ∈ d, kvReject p.2 = false) →
        ∀ p ∈ kvLoop d lines, kvReject p.2 = false := by
  intro n
  induction n with
  | zero =>
    intro lines hlen d hd p hp
    match lines, hlen with
    | [], _ => exact hd p hp
  | succ n ih =>
    intro lines hlen d hd p hp
    match lines, hlen, hp with
    | [], _, hp => exact hd p hp
    | [k], _, hp => exact hd p hp
    | k :: v :: rest, hlen, hp =>
      rw [kvLoop] at hp
      by_cases hrej : kvReject v
      · rw [if_pos hrej] at hp
        exact ih (v :: rest) (by simpa using Nat.le_of_succ_le_succ hlen) d hd p hp
      · rw [if_neg hrej] at hp
        refine ih rest ?_ (pyDictSet d k v) ?_ p hp
        · have := Nat.le_of_succ_le_succ hlen
          simp only [List.length_cons] at this ⊢
          omega
        · intro q hq
          rcases mem_pyDictSet d k v q hq with h1 | h1
          · exact hd q h1
          · rw [h1]
            simpa using hrej

/-- The key/value table claim C6 is checked on a full `extract_table` run: a
`key_value_table` spec whose pattern captures the block
`Вес\n120\nДлина\nN/A\n`. -/
def c6TableInfo : TableInfo :=
  { tableName := "dimensions", tableNumber := "3",
    description := "Key value table",
    extractionMethod := "key_value_table",
    tablePattern := some "Таблица 3\\s*(.+?)Примечания",
    flags := ["DOTALL"] }

/-- Oracle for C6: `re.findall` of the table pattern captures the four-line
block (the lazy group stops right before `Примечания`, keeping the final
newline). -/
def c6Oracle : Oracle := fun p _ _ =>
  if p = "Таблица 3\\s*(.+?)Примечания" then
    { findall := [.str "Вес\n120\nДлина\nN/A\n"] }
  else {}

/-- C6.  Key/value table pairing: lines are consumed pairwise as (key, value)
unless the would-be value starts with a rejection marker, in which case the
loop advances by one line; on the block with lines
`[Вес, 120, Длина, N/A]` the data map is exactly `{Вес: 120}` — `Длина` is
skipped and `N/A` is not consumed as its value — and, in general, no stored
value starts with a rejection marker. -/
theorem c6_key_value_pairing :
    extractTable c6Oracle "Таблица 3\nВес\n120\nДлина\nN/A\nПримечания"
        c6TableInfo =
      .ok [("table_name", .str "dimensions"), ("table_number", .str "3"),
           ("description", .str "Key value table"), ("columns", .vlist []),
           ("rows", .vmap []), ("data", .vmap [("Вес", .str "120")])] ∧
    kvLoop [] ["Вес", "120", "Длина", "N/A"] = [("Вес", "120")] ∧
    ∀ (lines : List String) (p : String × String),
      p ∈ kvLoop [] lines → kvReject p.2 = false := by
  refine ⟨rfl, by decide, ?_⟩
  intro lines p hp
  exact kvLoop_reject_invariant lines.length lines (Nat.le_refl _) []
    (by intro q hq; exact absurd hq (List.not_mem_nil q)) p hp

/-- Witness for C6 at the claim's concrete block. -/
theorem c6_key_value_pairing_witness :
    ("Вес", "120") ∈ kvLoop [] ["Вес", "120", "Длина", "N/A"] ∧
    kvReject "120" = false :=
  ⟨by decide,
   c6_key_value_pairing.2.2 ["Вес", "120", "Длина", "N/A"] ("Вес", "120")
     (by decide)⟩

/-- The selection of `MarkupParser._find_by_regex` agrees with the fallback
order stated in the specification. -/
theorem selectValue_eq_spec (gn : Nat) (m : GroupMatch) :
    selectValue gn m = selectValueSpec gn m := by
  unfold selectValue selectValueSpec
  by_cases hg : m.groups.isEmpty
  · simp [hg]
  · by_cases h0 : gn = 0
    · subst h0
      simp [hg]
    · by_cases hl : gn ≤ m.groups.length
      · simp [hg, h0, hl, Nat.pos_of_ne_zero h0, Nat.not_lt.mpr hl]
      · simp [hg, h0, hl, Nat.lt_of_not_le hl]

/-- C8.  Capture-group selection fallback order: for every match list, the
values collected by the group branch of `_find_by_regex` are exactly those
described by the claim — whole match when the pattern has no capture groups,
group 1 when the requested index is not a valid positive group index, group
`i` otherwise; no case errors (the function is total). -/
theorem c8_group_selection_fallback :
    ∀ (gn : Nat) (ms : List GroupMatch),
      findGroupValues gn ms = ms.map (selectValueSpec gn) := by
  intro gn ms
  induction ms with
  | nil => rfl
  | cons m rest ih =>
    rw [findGroupValues, List.map_cons, selectValue_eq_spec, ih]

/-- Table descriptor for C1: the fixed-row (`structured_table_2`)
temperature-table strategy. -/
def c1TableInfo : TableInfo :=
  { tableName := "temperature_mode", tableNumber := "2",
    description := "Temperature table",
    extractionMethod := "structured_table_2",
    tablePattern := some "Таблица 2\\s*(.+?)Таблица 3",
    flags := ["DOTALL"] }

/-- Oracle for C1, zero-match side: the pattern matches nothing. -/
def c1OracleNoMatch : Oracle := fun _ _ _ => {}

/-- Oracle for C1, crash side: on the document
`Таблица 2\nНагрев\nТемпература\nВремя\n850\n30\n860\nТаблица 3` the table
pattern's lazy group captures `Нагрев\nТемпература\nВремя\n850\n30\n860\n` —
six non-empty lines after stripping. -/
def c1OracleSixLines : Oracle := fun p _ _ =>
  if p = "Таблица 2\\s*(.+?)Таблица 3" then
    { findall := [.str "Нагрев\nТемпература\nВремя\n850\n30\n860\n"] }
  else {}

/-- C1.  Zero matches indeed degrade to the static identity fields with empty
data, but the fixed-row strategy is not total: a captured block of exactly
six non-empty lines passes the `len(lines) >= 6` guard and then reads
`lines[6]`, `lines[7]`, `lines[8]`, raising `IndexError` — `extract_table`
throws instead of returning a `TableResult`. -/
theorem c1_fixed_row_strategy_raises :
    extractTable c1OracleNoMatch "no table in this document" c1TableInfo =
      .ok [("table_name", .str "temperature_mode"),
           ("table_number", .str "2"),
           ("description", .str "Temperature table"),
           ("columns", .vlist []), ("rows", .vmap []), ("data", .vmap [])] ∧
    extractTable c1OracleSixLines
        "Таблица 2\nНагрев\nТемпература\nВремя\n850\n30\n860\nТаблица 3"
        c1TableInfo =
      .error "IndexError" :=
  ⟨rfl, rfl⟩

/-- Oracle for C2: `re.findall` with the single-group pattern
`стали марки (\d+)` on a text containing two occurrences returns both group
captures, in document order. -/
def c2Oracle : Oracle := fun p _ _ =>
  if p = "стали марки (\\d+)" then
    { findall := [.str "10", .str "20"] }
  else {}

/-- C2 counterexample.  On a document where the pattern matches twice, the
stable regex parser stores the full list of matches under the field's key,
not the first match as a scalar. -/
theorem c2_counterexample :
    extractTechnicalParams
        [("steel_grade", { pattern := "стали марки (\\d+)" })] c2Oracle
        "изготовлена из стали марки 10 и из стали марки 20" =
      [("steel_grade", .vlist [.str "10", .str "20"])] ∧
    Value.vlist [.str "10", .str "20"] ≠ .str "10" :=
  ⟨rfl, fun h => Value.noConfusion h⟩

/-- C2 amended.  In the stable regex parser a single match is stored as a
scalar and two or more matches are stored as the full list, in document
order; the markup parser's parameter path, by contrast, only ever consults
the first value the matcher returned. -/
theorem c2_first_match_amended :
    ∀ (k : String) (p : PatternInfo) (o : Oracle) (text : String),
      p.pattern ≠ "" →
      hasNamedGroups p.pattern = false →
      (o p.pattern p.flags text).raisesError = false →
      (∀ v : Value, (o p.pattern p.flags text).findall = [v] →
        truthy v = true →
        extractTechnicalParams [(k, p)] o text = [(k, v)]) ∧
      (∀ (v w : Value) (vs : List Value),
        (o p.pattern p.flags text).findall = v :: w :: vs →
        extractTechnicalParams [(k, p)] o text =
          [(k, .vlist (v :: w :: vs))]) ∧
      (∀ (d : List (String × String)) (key v : String)
          (vs : List (Option String)),
        paramsStoreMarkup d key (some v :: vs) =
          paramsStoreMarkup d key [some v]) := by
  intro k p o text hne hng herr
  refine ⟨?_, ?_, ?_⟩
  · intro v hfa htr
    unfold extractTechnicalParams extractFieldsLoop extractWithPattern
    rw [if_neg (by simpa using hne), if_neg (by simp [herr]), if_neg (by simp [hng]),
      hfa]
    simp [htr, pyDictSet, extractFieldsLoop]
  · intro v w vs hfa
    unfold extractTechnicalParams extractFieldsLoop extractWithPattern
    rw [if_neg (by simpa using hne), if_neg (by simp [herr]), if_neg (by simp [hng]),
      hfa]
    simp [truthy, pyDictSet, extractFieldsLoop]
  · intro d key v vs
    rfl

/-- Witness for the C2 amendment: both storage behaviours realized on the
two-occurrence oracle and on a one-element variant. -/
def c2OracleSingle : Oracle := fun p _ _ =>
  if p = "стали марки (\\d+)" then { findall := [.str "10"] } else {}

/-- Witness for C2's amended theorem at concrete inputs. -/
theorem c2_first_match_amended_witness :
    extractTechnicalParams
        [("steel_grade", { pattern := "стали марки (\\d+)" })] c2OracleSingle
        "изготовлена из стали марки 10" = [("steel_grade", .str "10")] ∧
    extractTechnicalParams
        [("steel_grade", { pattern := "стали марки (\\d+)" })] c2Oracle
        "изготовлена из стали марки 10 и из стали марки 20" =
      [("steel_grade", .vlist [.str "10", .str "20"])] ∧
    paramsStoreMarkup [] "steel_grade" [some "10", some "20"] =
      paramsStoreMarkup [] "steel_grade" [some "10"] :=
  ⟨(c2_first_match_amended "steel_grade"
      { pattern := "стали марки (\\d+)" } c2OracleSingle
      "изготовлена из стали марки 10" (by decide) (by decide) rfl).1
      (.str "10") rfl rfl,
   (c2_first_match_amended "steel_grade"
      { pattern := "стали марки (\\d+)" } c2Oracle
      "изготовлена из стали марки 10 и из стали марки 20" (by decide)
      (by decide) rfl).2.1 (.str "10") (.str "20") [] rfl,
   (c2_first_match_amended "steel_grade"
      { pattern := "стали марки (\\d+)" } c2Oracle
      "изготовлена из стали марки 10 и из стали марки 20" (by decide)
      (by decide) rfl).2.2 [] "steel_grade" "10" [some "20"]⟩

/-- The matcher for the pattern `abc\Z` under the flags `_find_by_regex`
always sets (`IGNORECASE | MULTILINE | DOTALL`), on the lowercase ASCII
inputs exercised here: `\Z` anchors at the absolute end of the string, so
the only possible match is the suffix `abc`; `re.finditer` therefore yields
one match when the string ends with `abc` and none otherwise. -/
def finditerAbcEnd (s : String) : List String :=
  if pyEndsWith s "abc" then ["abc"] else []

/-- `re.search` for the same pattern: its first (only possible) match. -/
def searchAbcEnd (s : String) : Option String :=
  if pyEndsWith s "abc" then some "abc" else none

/-- C4 counterexample.  For the pattern `abc\Z` on the document `abc\ndef`,
the full-document search yields zero matches, yet the line-by-line fallback
finds `abc` on the first line — the claim that a zero-match full search
implies a zero-match fallback is false. -/
theorem c4_counterexample :
    finditerAbcEnd "abc\ndef" = [] ∧
    findAllNoGroup finditerAbcEnd searchAbcEnd "abc\ndef"
        (pySplitNl "abc\ndef") = ["abc"] :=
  ⟨rfl, rfl⟩

/-- C4 amended.  Whenever the full-document search yields at least one match,
the output is exactly those matches and the line-by-line fallback is never
consulted: the result does not depend on the per-line search function at
all.  (When the full search yields nothing the fallback may well find
matches — that is its purpose.) -/
theorem c4_fallback_never_consulted :
    ∀ (fI : String → List String) (s1 s2 : String → Option String)
      (text : String) (docLines : List String),
      fI text ≠ [] →
      findAllNoGroup fI s1 text docLines = fI text ∧
      findAllNoGroup fI s1 text docLines =
        findAllNoGroup fI s2 text docLines := by
  intro fI s1 s2 text docLines h
  unfold findAllNoGroup
  rw [if_neg (by simpa [List.isEmpty_iff] using h)]
  rw [if_neg (by simpa [List.isEmpty_iff] using h)]
  exact ⟨rfl, rfl⟩

/-- Witness for C4's amended theorem: a matcher that finds one full-document
match ignores two different per-line searchers. -/
theorem c4_fallback_never_consulted_witness :
    findAllNoGroup (fun _ => ["m"]) (fun _ => some "x") "doc" ["doc"] =
      ["m"] ∧
    findAllNoGroup (fun _ => ["m"]) (fun _ => some "x") "doc" ["doc"] =
      findAllNoGroup (fun _ => ["m"]) (fun _ => none) "doc" ["doc"] :=
  c4_fallback_never_consulted (fun _ => ["m"]) (fun _ => some "x")
    (fun _ => none) "doc" ["doc"] (by decide)

/-- Section descriptor for the C5 counterexample: a plain (default-method)
section whose body pattern is `A(B*)`. -/
def c5SectionInfo : SectionInfo := { pattern := "A(B*)" }

/-- Oracle for C5: on the document `AC` the pattern `A(B*)` matches at
offset 0 but its group captures the empty string, so
`re.findall` returns `[str()]` — one match, empty selected value. -/
def c5Oracle : Oracle := fun p _ _ =>
  if p = "A(B*)" then { findall := [.str ""] } else {}

/-- Subsection oracle for C5 (unused by the counterexample). -/
def c5SubOracle : SubOracle := fun _ _ => []

/-- C5 counterexample.  The body pattern matches the document (`findall` is
non-empty), yet the section is entirely absent from the result, because the
selected value is the empty string and hence falsy — the claim that a
matching body pattern with zero subsections stores the plain body text
fails. -/
theorem c5_counterexample :
    (c5Oracle "A(B*)" [] "AC").findall ≠ [] ∧
    extractSections [("conditions", c5SectionInfo)] c5Oracle c5SubOracle
        "AC" = .ok [] := by
  constructor
  · intro h
    simp [c5Oracle] at h
  · rfl

/-- C5 amended.  In the stable regex parser: a falsy body result (no match,
or an empty selected value) omits the section entirely; a truthy body with
no subsection pass, or whose subsection pass finds zero subsections, stores
the body verbatim with no subsections key. -/
theorem c5_sections_amended :
    ∀ (name : String) (si : SectionInfo) (o : Oracle) (so : SubOracle)
      (text : String),
      (truthyOpt (extractWithPattern { pattern := si.pattern, flags := si.flags }
          (o si.pattern si.flags text)) = false →
        extractSections [(name, si)] o so text = .ok []) ∧
      (∀ v : Value,
        extractWithPattern { pattern := si.pattern, flags := si.flags }
            (o si.pattern si.flags text) = some v →
        truthy v = true →
        (si.extractionMethod ≠ "structured_subsections" ∨
          si.subsectionPattern = none) →
        extractSections [(name, si)] o so text = .ok [(name, v)]) ∧
      (∀ (s sp : String),
        extractWithPattern { pattern := si.pattern, flags := si.flags }
            (o si.pattern si.flags text) = some (.str s) →
        truthy (Value.str s) = true →
        si.extractionMethod = "structured_subsections" →
        si.subsectionPattern = some sp →
        so sp s = [] →
        extractSections [(name, si)] o so text = .ok [(name, .str s)]) := by
  intro name si o so text
  refine ⟨?_, ?_, ?_⟩
  · intro h
    unfold extractSections extractSectionsLoop
    cases hr : extractWithPattern { pattern := si.pattern, flags := si.flags }
        (o si.pattern si.flags text) with
    | none => rfl
    | some v =>
      rw [hr] at h
      simp only [truthyOpt] at h
      simp [h, extractSectionsLoop]
  · intro v hr htr hmeth
    unfold extractSections extractSectionsLoop
    rw [hr]
    simp only [htr, Bool.not_true, Bool.false_eq_true, if_false]
    rcases hmeth with h | h
    · have hb : (si.extractionMethod == "structured_subsections") = false := by
        simp [h]
      rw [hb]
      simp [pyDictSet, extractSectionsLoop]
    · rw [h]
      cases hb : (si.extractionMethod == "structured_subsections") <;>
        simp [pyDictSet, extractSectionsLoop]
  · intro s sp hr htr hmeth hsub hso
    unfold extractSections extractSectionsLoop
    rw [hr]
    simp only [htr, Bool.not_true, Bool.false_eq_true, if_false]
    have hb : (si.extractionMethod == "structured_subsections") = true := by
      simp [hmeth]
    rw [hb, hsub]
    simp [hso, subsectionsFromMatches, pyDictSet, extractSectionsLoop]

/-- Oracle for the truthy-body side of the C5 witness. -/
def c5OracleBody : Oracle := fun p _ _ =>
  if p = "A(B*)" then { findall := [.str "BB"] } else {}

/-- Section descriptor with a subsection pass for the C5 witness. -/
def c5SectionInfoSub : SectionInfo :=
  { pattern := "A(B*)", extractionMethod := "structured_subsections",
    subsectionPattern := some "(\\d+\\.\\d+)\\s*(.*)" }

/-- Witness for C5's amended theorem: all three branches realized on
concrete inputs. -/
theorem c5_sections_amended_witness :
    extractSections [("conditions", c5SectionInfo)] c5Oracle c5SubOracle
        "AC" = .ok [] ∧
    extractSections [("conditions", c5SectionInfo)] c5OracleBody c5SubOracle
        "ABB" = .ok [("conditions", .str "BB")] ∧
    extractSections [("conditions", c5SectionInfoSub)] c5OracleBody
        c5SubOracle "ABB" = .ok [("conditions", .str "BB")] :=
  ⟨(c5_sections_amended "conditions" c5SectionInfo c5Oracle c5SubOracle
      "AC").1 (by decide),
   (c5_sections_amended "conditions" c5SectionInfo c5OracleBody c5SubOracle
      "ABB").2.1 (.str "BB") rfl (by decide) (Or.inl (by decide)),
   (c5_sections_amended "conditions" c5SectionInfoSub c5OracleBody
      c5SubOracle "ABB").2.2 "BB" "(\\d+\\.\\d+)\\s*(.*)" rfl (by decide)
      rfl rfl rfl⟩

/-- C9.  Determinism / idempotence: two runs of `parse_document` on equal
oracles (the regex engine applied to the same document), equal pattern
specifications and equal texts yield identical results, byte for byte when
serialized; the engine threads no state between runs. -/
theorem c9_idempotent :
    ∀ (o1 o2 : Oracle) (so1 so2 : SubOracle) (ps1 ps2 : PatternsSpec)
      (t1 t2 : String),
      o1 = o2 → so1 = so2 → ps1 = ps2 → t1 = t2 →
      parseDocument o1 so1 ps1 t1 = parseDocument o2 so2 ps2 t2 ∧
      (parseDocument o1 so1 ps1 t1).map pyReprV =
        (parseDocument o2 so2 ps2 t2).map pyReprV := by
  intro o1 o2 so1 so2 ps1 ps2 t1 t2 h1 h2 h3 h4
  subst h1
  subst h2
  subst h3
  subst h4
  exact ⟨rfl, rfl⟩

/-- Witness for C9 at a concrete run. -/
theorem c9_idempotent_witness :
    parseDocument (fun _ _ _ => {}) (fun _ _ => []) {} "документ" =
      parseDocument (fun _ _ _ => {}) (fun _ _ => []) {} "документ" ∧
    (parseDocument (fun _ _ _ => {}) (fun _ _ => []) {} "документ").map
        pyReprV =
      (parseDocument (fun _ _ _ => {}) (fun _ _ => []) {} "документ").map
        pyReprV :=
  c9_idempotent _ _ _ _ _ _ _ _ rfl rfl rfl rfl

/-- A falsy extraction step leaves the field loop's accumulator unchanged. -/
theorem fieldsLoop_cons_skip (o : Oracle) (text : String)
    (acc : List (String × Value)) (k : String) (p : PatternInfo)
    (rest : List (String × PatternInfo))
    (h : truthyOpt (extractWithPattern p (o p.pattern p.flags text)) = false) :
    extractFieldsLoop o text acc ((k, p) :: rest) =
      extractFieldsLoop o text acc rest := by
  rw [extractFieldsLoop]
  cases hr : extractWithPattern p (o p.pattern p.flags text) with
  | none => rfl
  | some v =>
    rw [hr] at h
    simp only [truthyOpt] at h
    simp [h]

/-- Under an oracle whose `findall` for the pattern `p0` is a single empty
capture, the extraction of a `p0` field is falsy. -/
theorem ewp_empty_capture_falsy (o : Oracle) (p0 text : String)
    (p : PatternInfo) (hng : hasNamedGroups p0 = false)
    (hp : p.pattern = p0)
    (hfa : (o p0 p.flags text).findall = [.str ""])
    (herr : (o p0 p.flags text).raisesError = false) :
    truthyOpt (extractWithPattern p (o p.pattern p.flags text)) = false := by
  unfold extractWithPattern
  rw [hp]
  by_cases h0 : p0 == ""
  · rw [if_pos h0]
    rfl
  · rw [if_neg h0, if_neg (by simp [herr]), if_neg (by simp [hng]), hfa]
    rfl

/-- Under an oracle whose `findall` for the pattern `p0` is empty, the
extraction of a `p0` field is falsy. -/
theorem ewp_no_match_falsy (o : Oracle) (p0 text : String)
    (p : PatternInfo) (hng : hasNamedGroups p0 = false)
    (hp : p.pattern = p0)
    (hfa : (o p0 p.flags text).findall = [])
    (herr : (o p0 p.flags text).raisesError = false) :
    truthyOpt (extractWithPattern p (o p.pattern p.flags text)) = false := by
  unfold extractWithPattern
  rw [hp]
  by_cases h0 : p0 == ""
  · rw [if_pos h0]
    rfl
  · rw [if_neg h0, if_neg (by simp [herr]), if_neg (by simp [hng]), hfa]
    rfl

/-- The field loop cannot distinguish an oracle that reports a single empty
capture for `p0` from one that reports no match for `p0`, when the two
agree on every other pattern. -/
theorem fieldsLoop_empty_congr (o1 o2 : Oracle) (p0 text : String)
    (hng : hasNamedGroups p0 = false)
    (hagree : ∀ (p : String) (f : List String) (t : String), p ≠ p0 →
      o1 p f t = o2 p f t)
    (hfa1 : ∀ (f : List String) (t : String), (o1 p0 f t).findall = [.str ""])
    (herr1 : ∀ (f : List String) (t : String), (o1 p0 f t).raisesError = false)
    (hfa2 : ∀ (f : List String) (t : String), (o2 p0 f t).findall = [])
    (herr2 : ∀ (f : List String) (t : String), (o2 p0 f t).raisesError = false) :
    ∀ (fields : List (String × PatternInfo)) (acc : List (String × Value)),
      extractFieldsLoop o1 text acc fields =
        extractFieldsLoop o2 text acc fields := by
  intro fields
  induction fields with
  | nil => intro acc; rfl
  | cons f rest ih =>
    intro acc
    obtain ⟨k, p⟩ := f
    by_cases hp : p.pattern = p0
    · rw [fieldsLoop_cons_skip o1 text acc k p rest
        (ewp_empty_capture_falsy o1 p0 text p hng hp (hfa1 p.flags text)
          (herr1 p.flags text))]
      rw [fieldsLoop_cons_skip o2 text acc k p rest
        (ewp_no_match_falsy o2 p0 text p hng hp (hfa2 p.flags text)
          (herr2 p.flags text))]
      exact ih acc
    · rw [extractFieldsLoop, extractFieldsLoop,
        hagree p.pattern p.flags text hp]
      cases extractWithPattern p (o2 p.pattern p.flags text) with
      | none => exact ih acc
      | some v =>
        by_cases htr : truthy v
        · simp only [htr, if_true]
          exact ih (pyDictSet acc k v)
        · simp only [htr, if_false]
          exact ih acc

/-- C10.  An empty captured value is indistinguishable from absence: for
every metadata and technical-parameter field list, running the extraction
under an engine that reports a single empty capture for the pattern `p0`
gives exactly the result of running it under an engine that reports no
match for `p0` — the field is omitted in both. -/
theorem c10_empty_capture_is_absence :
    ∀ (o1 o2 : Oracle) (p0 text : String)
      (mfields pfields : List (String × PatternInfo)),
      hasNamedGroups p0 = false →
      (∀ (p : String) (f : List String) (t : String), p ≠ p0 →
        o1 p f t = o2 p f t) →
      (∀ (f : List String) (t : String), (o1 p0 f t).findall = [.str ""]) →
      (∀ (f : List String) (t : String), (o1 p0 f t).raisesError = false) →
      (∀ (f : List String) (t : String), (o2 p0 f t).findall = []) →
      (∀ (f : List String) (t : String), (o2 p0 f t).raisesError = false) →
      extractMetadata mfields o1 text = extractMetadata mfields o2 text ∧
      extractTechnicalParams pfields o1 text =
        extractTechnicalParams pfields o2 text := by
  intro o1 o2 p0 text mfields pfields hng hagree hfa1 herr1 hfa2 herr2
  exact ⟨fieldsLoop_empty_congr o1 o2 p0 text hng hagree hfa1 herr1 hfa2 herr2
      mfields [],
    fieldsLoop_empty_congr o1 o2 p0 text hng hagree hfa1 herr1 hfa2 herr2
      pfields []⟩

/-- C10 witness oracle: empty capture for `A(B*)`, a real match for the
other field's pattern. -/
def c10Oracle1 : Oracle := fun p _ _ =>
  if p = "A(B*)" then { findall := [.str ""] }
  else { findall := [.str "x"] }

/-- C10 witness oracle: no match for `A(B*)`, same elsewhere. -/
def c10Oracle2 : Oracle := fun p _ _ =>
  if p = "A(B*)" then {}
  else { findall := [.str "x"] }

/-- Witness for C10 on a two-field metadata group and a one-field parameter
group. -/
theorem c10_empty_capture_is_absence_witness :
    extractMetadata [("date", { pattern := "Q(W)" }),
        ("grade", { pattern := "A(B*)" })] c10Oracle1 "AC" =
      extractMetadata [("date", { pattern := "Q(W)" }),
        ("grade", { pattern := "A(B*)" })] c10Oracle2 "AC" ∧
    extractTechnicalParams [("grade", { pattern := "A(B*)" })] c10Oracle1
        "AC" =
      extractTechnicalParams [("grade", { pattern := "A(B*)" })] c10Oracle2
        "AC" :=
  c10_empty_capture_is_absence c10Oracle1 c10Oracle2 "A(B*)" "AC"
    [("date", { pattern := "Q(W)" }), ("grade", { pattern := "A(B*)" })]
    [("grade", { pattern := "A(B*)" })]
    (by decide)
    (by
      intro p f t hp
      unfold c10Oracle1 c10Oracle2
      rw [if_neg hp, if_neg hp])
    (by intro f t; simp [c10Oracle1])
    (by intro f t; simp [c10Oracle1])
    (by intro f t; simp [c10Oracle2])
    (by intro f t; simp [c10Oracle2])

/-- A slice glued to the drop at its end point is the drop at its start
point. -/
theorem sliceGlue (l : List Char) (a b : Nat) (h : a ≤ b) :
    sliceChars l a b ++ l.drop b = l.drop a := by
  unfold sliceChars
  have hd : (l.drop a).drop (b - a) = l.drop b := by
    rw [List.drop_drop]
    congr 1
    omega
  rw [← hd, List.take_append_drop]

/-- The first-match start offset of a non-empty match list. -/
theorem headStart_cons (text : List Char) (m : MatchSpan)
    (rest : List MatchSpan) : headStart text (m :: rest) = m.matchStart := rfl

/-- The subsection boundary law over raw (unstripped) bodies, generalized to
an arbitrary starting offset: the labels interleaved with the adjacent
truncations reproduce the document suffix. -/
theorem reconstructFrom (text : List Char) :
    ∀ (ms : List MatchSpan) (p : Nat), validFrom p ms = true →
      sliceChars text p (headStart text ms) ++
        interleaveParts text ms ((rawBodies text ms).map (fun q => q.2)) =
      text.drop p := by
  intro ms
  induction ms with
  | nil =>
    intro p _
    show sliceChars text p text.length ++ [] = text.drop p
    rw [List.append_nil]
    unfold sliceChars
    exact List.take_of_length_le (by rw [List.length_drop])
  | cons m rest ih =>
    intro p hp
    unfold validFrom at hp
    simp only [Bool.and_eq_true, decide_eq_true_eq] at hp
    obtain ⟨⟨hps, hse⟩, hrest⟩ := hp
    have h3 := ih m.matchEnd hrest
    simp only [rawBodies, headStart_cons, List.map_cons, interleaveParts,
      List.append_assoc]
    rw [h3, sliceGlue text m.matchStart m.matchEnd hse,
      sliceGlue text p m.matchStart hps]

/-- Writing the stripped raw bodies in match order into an empty dict whose
keys never collide appends them one after another. -/
theorem subsectionsLoop_append (text : List Char) :
    ∀ (ms : List MatchSpan) (d : List (String × List Char)),
      (∀ q ∈ d, ∀ m ∈ ms, q.1 ≠ m.group1) →
      (ms.map (fun m => m.group1)).Nodup →
      subsectionsLoop text d ms =
        d ++ (rawBodies text ms).map (fun q => (q.1, pyStripL q.2)) := by
  intro ms
  induction ms with
  | nil =>
    intro d _ _
    simp [subsectionsLoop, rawBodies]
  | cons m rest ih =>
    intro d hfresh hnd
    rw [List.map_cons, List.nodup_cons] at hnd
    show subsectionsLoop text
        (pyDictSet d m.group1
          (pyStripL (sliceChars text m.matchEnd (headStart text rest)))) rest =
      d ++ ((m.group1,
              pyStripL (sliceChars text m.matchEnd (headStart text rest))) ::
            (rawBodies text rest).map (fun q => (q.1, pyStripL q.2)))
    rw [pyDictSet_fresh d m.group1 _
      (fun q hq => hfresh q hq m (List.mem_cons_self m rest))]
    rw [ih (d ++ [(m.group1, _)]) ?_ hnd.2]
    · rw [List.append_assoc]
      rfl
    · intro q hq m2 hm2
      rcases List.mem_append.mp hq with h1 | h1
      · exact hfresh q h1 m2 (List.mem_cons_of_mem m hm2)
      · rw [List.mem_singleton.mp h1]
        intro hc
        apply hnd.1
        have hcc : m.group1 = m2.group1 := hc
        rw [hcc]
        exact List.mem_map_of_mem (fun x => x.group1) hm2

/-- C3 counterexample.  On the section body `1.1\nabc\n1.2\ndef` with the
subsection label pattern matching `1.1` at offsets [0, 3) and `1.2` at
offsets [8, 11) (exactly what `re.finditer` reports for a multiline
`^(\d\.\d)` pattern), the stored subsection bodies are the *stripped*
truncations, so concatenating them with the inter-label text does not
reconstruct the section body. -/
theorem c3_counterexample :
    reconstruct "1.1\nabc\n1.2\ndef".data
        [⟨0, 3, "1.1"⟩, ⟨8, 11, "1.2"⟩]
        ((extractSubsections "1.1\nabc\n1.2\ndef".data
            [⟨0, 3, "1.1"⟩, ⟨8, 11, "1.2"⟩]).map (fun q => q.2)) ≠
      "1.1\nabc\n1.2\ndef".data := by
  decide

/-- C3 amended.  For matches delivered in document order without overlap:
each raw subsection body is truncated exactly at the start offset of the
next match (end-of-text for the last), and concatenating the inter-label
text with the *unstripped* truncations reconstructs the section body
exactly; what `_extract_subsections` stores are these truncations after
whitespace stripping. -/
theorem c3_subsection_boundary_amended :
    ∀ (text : List Char) (ms : List MatchSpan),
      validFrom 0 ms = true →
      (ms.map (fun m => m.group1)).Nodup →
      reconstruct text ms ((rawBodies text ms).map (fun q => q.2)) = text ∧
      extractSubsections text ms =
        (rawBodies text ms).map (fun q => (q.1, pyStripL q.2)) := by
  intro text ms hv hnd
  constructor
  · have h := reconstructFrom text ms 0 hv
    rw [List.drop_zero] at h
    exact h
  · have h := subsectionsLoop_append text ms []
      (fun q hq => absurd hq (List.not_mem_nil q)) hnd
    simpa [extractSubsections] using h

/-- Witness for C3's amended theorem at the counterexample's concrete
input. -/
theorem c3_subsection_boundary_amended_witness :
    reconstruct "1.1\nabc\n1.2\ndef".data
        [⟨0, 3, "1.1"⟩, ⟨8, 11, "1.2"⟩]
        ((rawBodies "1.1\nabc\n1.2\ndef".data
            [⟨0, 3, "1.1"⟩, ⟨8, 11, "1.2"⟩]).map (fun q => q.2)) =
      "1.1\nabc\n1.2\ndef".data ∧
    extractSubsections "1.1\nabc\n1.2\ndef".data
        [⟨0, 3, "1.1"⟩, ⟨8, 11, "1.2"⟩] =
      (rawBodies "1.1\nabc\n1.2\ndef".data
          [⟨0, 3, "1.1"⟩, ⟨8, 11, "1.2"⟩]).map
        (fun q => (q.1, pyStripL q.2)) :=
  c3_subsection_boundary_amended "1.1\nabc\n1.2\ndef".data
    [⟨0, 3, "1.1"⟩, ⟨8, 11, "1.2"⟩] (by decide) (by decide)

end LetterExplorer
